import Mathlib

/-!
# Shallow embedding of the code-review job pipeline

This file embeds, in Lean, the parts of the `code-review-system`
repository that the verified claims are about:

* `backend/src/agents/AgentOrchestrator.js` — fan-out/fan-in over the
  four analyzer agents and per-file aggregation (`analyzeCode`,
  `aggregateResults`);
* `backend/src/workers/reviewWorker.js` — the per-job worker pipeline
  (`processReviewJob`), including its persistence and failure paths;
* `backend/src/queues/reviewQueue.js` (source file name unknown) —
  `queueReviewJob`, on top of a queue backend modelled from the spec.

JavaScript-specific behaviour that the claims depend on is modelled
explicitly: truthiness of numbers (`0` is falsy) in filters such as
`r.findings && r.findings.score`, the `|| default` idiom, and the
`NaN` produced by incrementing an absent object property
(`issuesBySeverity[sev]++`).  Machine-level floating point of
`Math.floor((processed / total) * 50)` is embedded as exact natural
division, and `Math.round` of a non-negative ratio as half-up rounding.
Wall-clock timestamps and the monetary-cost string (`toFixed(6)`) are
elided: no claim mentions them.
-/

namespace CodeReview

/-- A JavaScript number cell that is either an integer or `NaN`.
`issuesBySeverity[sev]++` on an absent key stores `NaN`. -/
inductive JsNum where
  | int : Int → JsNum
  | nan : JsNum
deriving DecidableEq, Repr

/-- One issue as produced by an analyzer
(`{ severity, line, description, recommendation }`). -/
structure Issue where
  severity : String
  line : Option Nat := none
  description : String := ""
  recommendation : String := ""
deriving DecidableEq, Repr

/-- The structured findings of one successful analyzer call
(`{ issues, score, summary }`); fields are optional because the
JavaScript object may lack them, and the source guards on them. -/
structure Findings where
  issues : Option (List Issue) := none
  score : Option Nat := none
  summary : String := ""
deriving DecidableEq, Repr

/-- The settled outcome of one agent's `analyze` call, as consumed by
`AgentOrchestrator.aggregateResults`: either `findings` is present
(success) or `error` is present (failure). -/
structure AgentResult where
  agentName : String := ""
  specialty : String := ""
  findings : Option Findings := none
  error : Option String := none
  tokensUsed : Nat := 0
deriving DecidableEq, Repr

/-- An issue after the orchestrator attaches `agent` and `specialty`
(`{ ...issue, agent: result.agentName, specialty: result.specialty }`). -/
structure TaggedIssue where
  issue : Issue
  agent : String
  specialty : String
deriving DecidableEq, Repr

/-- JS truthiness of `r.error`: an absent error field is falsy.
(`results.filter(r => !r.error)` / `results.filter(r => r.error)`.) -/
def AgentResult.isFailed (r : AgentResult) : Bool := r.error.isSome

/-- The issues contributed by one successful result, per the guard
`if (result.findings && result.findings.issues)`. -/
def resultIssues (r : AgentResult) : List Issue :=
  match r.findings with
  | none => []
  | some f =>
    match f.issues with
    | none => []
    | some is => is

/-- JS truthiness of `r.findings && r.findings.score`: requires the
findings object to be present and the score to be present and nonzero
(`0` is falsy, so a score of 0 fails this guard). -/
def hasTruthyScore (r : AgentResult) : Bool :=
  match r.findings with
  | none => false
  | some f =>
    match f.score with
    | none => false
    | some s => s ≠ 0

/-- The score of a result, `0` when absent (only read under
`hasTruthyScore`). -/
def scoreOf (r : AgentResult) : Nat :=
  match r.findings with
  | none => 0
  | some f => f.score.getD 0

/-- `Math.round (a / b)` for naturals `a`, `b` with `b > 0`:
half-up rounding, `⌊a/b + 1/2⌋ = (2a + b) / (2b)`. -/
def jsRound (a b : Nat) : Nat := (2 * a + b) / (2 * b)

/-- The severity tally object `{ high: 0, medium: 0, low: 0 }` before
any increments; any other key is absent. -/
def initialTally : String → Option JsNum := fun k =>
  if k = "high" ∨ k = "medium" ∨ k = "low" then some (JsNum.int 0) else none

/-- `obj[k]++` under JavaScript semantics: an integer is incremented,
`NaN` stays `NaN`, and an absent key becomes `NaN`
(`undefined + 1 = NaN`). -/
def jsInc (m : String → Option JsNum) (k : String) : String → Option JsNum :=
  fun k' =>
    if k' = k then
      some (match m k with
        | some (JsNum.int n) => JsNum.int (n + 1)
        | some JsNum.nan => JsNum.nan
        | none => JsNum.nan)
    else m k'

/-- The tagged issues collected from the successful results
(the `successful.forEach(...)` pushes into `allIssues`). -/
def allIssuesOf (results : List AgentResult) : List TaggedIssue :=
  (results.filter (fun r => !r.isFailed)).flatMap (fun r =>
    (resultIssues r).map (fun i =>
      { issue := i, agent := r.agentName, specialty := r.specialty }))

/-- How many collected issues carry severity `k`. -/
def severityCount (results : List AgentResult) (k : String) : Nat :=
  (allIssuesOf results).countP (fun ti => ti.issue.severity = k)

/-- The aggregated per-file report returned by
`AgentOrchestrator.aggregateResults`. -/
structure AggregateReport where
  success : Bool
  overallScore : Nat
  totalIssuesFound : Nat
  issuesBySeverity : String → Option JsNum
  agentResults : List AgentResult
  failedAgents : List AgentResult
  allIssues : List TaggedIssue
  agentsRun : Nat
  totalTokens : Nat

/-- `AgentOrchestrator.aggregateResults(results, totalDuration)`
(duration elided; no claim mentions it).  Splits `results` into
`successful` / `failed` by truthiness of `r.error`, collects every
successful result's issues tagged with agent and specialty, tallies
severities by unguarded `issuesBySeverity[issue.severity]++`, and
averages the scores of the successful results that pass the
`r.findings && r.findings.score` guard. -/
def aggregateResults (results : List AgentResult) : AggregateReport :=
  let successful := results.filter (fun r => !r.isFailed)
  let failed := results.filter (fun r => r.isFailed)
  let allIssues := allIssuesOf results
  let issuesBySeverity :=
    allIssues.foldl (fun m ti => jsInc m ti.issue.severity) initialTally
  let scores := (successful.filter hasTruthyScore).map scoreOf
  let overallScore :=
    if scores.length > 0 then jsRound (scores.foldl (· + ·) 0) scores.length
    else 0
  { success := true
    overallScore := overallScore
    totalIssuesFound := allIssues.length
    issuesBySeverity := issuesBySeverity
    agentResults := successful
    failedAgents := failed
    allIssues := allIssues
    agentsRun := successful.length
    totalTokens := successful.foldl (fun s r => s + r.tokensUsed) 0 }

/-- `Promise.all` over already-created tasks: rejects with the first
rejection, otherwise resolves with the list of values. -/
def promiseAll {ε α : Type} : List (Except ε α) → Except ε (List α)
  | [] => .ok []
  | x :: xs =>
    match x with
    | .error e => .error e
    | .ok a => (promiseAll xs).map (a :: ·)

/-- `AgentOrchestrator.analyzeCode(code, language)`, abstracted over the
settled outcome of each agent's `analyze` call: `Promise.all` joins the
agent tasks; on resolution the results are aggregated; the
`catch { throw error }` re-raises any rejection unchanged. -/
def analyzeCode (outcomes : List (Except String AgentResult)) :
    Except String AggregateReport :=
  match promiseAll outcomes with
  | .ok results => .ok (aggregateResults results)
  | .error e => .error e

/-- Modelled from the spec: `backend/src/agents/BaseAgent.js` is not in
the source tree (only its subclasses and the architecture document
reference it).  Per the spec's Analyzer contract, "Failure of the remote
call (timeout, malformed structured response, quota) yields an Error
outcome and must not raise past the Orchestrator's join boundary": an
agent's `analyze` always resolves with an `AgentResult` — carrying
`error` on failure — and never rejects. -/
def baseAgentInvoke (r : AgentResult) : Except String AgentResult := .ok r

/-! ## Worker pipeline (`backend/src/workers/reviewWorker.js`) -/

/-- One call to `updateJobStatus(jobId, updates)`: the partial record of
`review_jobs` columns written by that call.  Timestamp values are
abstracted to presence flags. -/
structure JobUpdate where
  status : Option String := none
  started_at : Bool := false
  completed_at : Bool := false
  error_message : Option String := none
  total_files : Option Nat := none
  processed_files : Option Nat := none
  progress : Option Nat := none
deriving DecidableEq, Repr

/-- A row of the `review_jobs` table.  Per the schema, a new job is
created with `status 'queued'`, `progress 0`, `processed_files` default
`0`, and `total_files` NULL (unset). -/
structure JobRecord where
  status : String := "queued"
  progress : Nat := 0
  total_files : Option Nat := none
  processed_files : Nat := 0
  error_message : Option String := none
  started_at : Bool := false
  completed_at : Bool := false
deriving DecidableEq, Repr

/-- Apply one partial update to a job row (`supabase.update(updates)`). -/
def applyUpdate (j : JobRecord) (u : JobUpdate) : JobRecord :=
  { status := u.status.getD j.status
    progress := u.progress.getD j.progress
    total_files := match u.total_files with | some t => some t | none => j.total_files
    processed_files := u.processed_files.getD j.processed_files
    error_message := match u.error_message with | some e => some e | none => j.error_message
    started_at := j.started_at || u.started_at
    completed_at := j.completed_at || u.completed_at }

/-- Fold a list of updates over a job row. -/
def applyUpdates (j : JobRecord) (us : List JobUpdate) : JobRecord :=
  us.foldl applyUpdate j

/-- One source file as returned by `parseCodeFiles`
(`{ path, content, language }`). -/
structure SrcFile where
  path : String
  language : String
  content : String := ""
deriving DecidableEq, Repr

/-- One flattened finding row pushed into `allFindings` for the
`reviews` table. -/
structure ReviewRow where
  agent_id : Option Nat
  file_path : String
  line_number : Option Nat
  severity : String
  category : String
  title : String
  description : String
  suggestion : Option String
deriving DecidableEq, Repr

/-- One entry of `analysisResults`
(`{ file: file.path, language: file.language, results }`). -/
structure FileResult where
  file : String
  language : String
  results : AggregateReport

/-- The outcomes of the external collaborators and the persistence
store for one run of `processReviewJob`: repository fetch, clone,
file enumeration, the settled agent results per file index, and the
error outcomes of the database writes/reads in the persistence phase. -/
structure WorkerEnv where
  repoFetch : Except String Unit
  cloneResult : Except String Unit
  parseResult : Except String (List SrcFile)
  agentOutcomes : Nat → List AgentResult
  resultsInsertError : Option String
  agentsFetch : Option (List (String × Nat))
  reviewsInsertFails : Nat → Bool

/-- Observable trace of one run: job-table updates in order, repository
status updates, `job.progress(...)` emissions, how many times the
orchestrator was invoked, how many times the `results.success`-false
branch was taken, how many aggregate-report inserts succeeded, how many
finding rows were inserted, and whether the workspace cleanup ran. -/
structure WorkerState where
  jobUpdates : List JobUpdate := []
  repoStatusUpdates : List String := []
  progressEvents : List Nat := []
  analyzeCalls : Nat := 0
  failedFileBranch : Nat := 0
  resultsInserts : Nat := 0
  reviewRowsInserted : Nat := 0
  cleanupArmed : Bool := false
  cleanupRan : Bool := false

/-- The fixed `specialtyToCategory` table in the finding-flattening
loop (schema categories `bug`, `security`, `performance`, `style`). -/
def specialtyToCategory (s : String) : Option String :=
  if s = "bug_detection" then some "bug"
  else if s = "security" then some "security"
  else if s = "performance" then some "performance"
  else if s = "style" then some "style"
  else none

/-- `specialtyToCategory[issue.specialty] || 'bug'`. -/
def categoryFor (s : String) : String := (specialtyToCategory s).getD "bug"

/-- The fixed `specialtyToDbName` table used for the agent-id lookup. -/
def specialtyToDbName (s : String) : Option String :=
  if s = "bug_detection" then some "bug"
  else if s = "security" then some "security"
  else if s = "performance" then some "performance"
  else if s = "style" then some "style"
  else none

/-- JavaScript's `.toLowerCase()` on the ASCII strings this pipeline
handles, written by structural recursion over the characters so that it
evaluates inside the kernel. -/
def jsToLower (s : String) : String := ⟨s.data.map Char.toLower⟩

/-- `severityMap[rawSeverity] || 'medium'` where
`rawSeverity = (issue.severity || 'medium').toLowerCase()`. -/
def normalizeSeverity (sev : String) : String :=
  let raw := if sev = "" then "medium" else jsToLower sev
  if raw = "critical" then raw
  else if raw = "high" then raw
  else if raw = "medium" then raw
  else if raw = "low" then raw
  else if raw = "info" then raw
  else "medium"

/-- The `agentMap` built from the `agents` table rows: each row maps
both its lowercased name and its exact name to its id; `null` rows
(fetch error) give the empty map. -/
def buildAgentMap (rows : Option (List (String × Nat))) : List (String × Nat) :=
  match rows with
  | none => []
  | some rs => rs.flatMap (fun r => [(jsToLower r.1, r.2), (r.1, r.2)])

/-- `agentMap[k]`: first binding wins. -/
def mapLookup (m : List (String × Nat)) (k : String) : Option Nat :=
  match m.find? (fun p => p.1 = k) with
  | some p => some p.2
  | none => none

/-- The agent-id resolution for one issue: by specialty via
`specialtyToDbName` (falling back to `specialty.toLowerCase()`), then
by the display name. -/
def lookupAgentId (m : List (String × Nat)) (agentName specialty : String) :
    Option Nat :=
  let bySpecialty :=
    if specialty ≠ "" then
      let dbName := (specialtyToDbName specialty).getD (jsToLower specialty)
      match mapLookup m dbName with
      | some i => some i
      | none => mapLookup m (jsToLower dbName)
    else none
  match bySpecialty with
  | some i => some i
  | none =>
    if agentName ≠ "" then
      match mapLookup m agentName with
      | some i => some i
      | none => mapLookup m (jsToLower agentName)
    else none

/-- Build the `reviews` row for one tagged issue of one file
(the push into `allFindings`).  JS truthiness: `issue.line || null`
turns line 0 into NULL, `issue.recommendation || null` turns the empty
string into NULL, `issue.description || 'Code issue found'` defaults
the title. -/
def buildRow (agentMap : List (String × Nat)) (filePath : String)
    (ti : TaggedIssue) : ReviewRow :=
  { agent_id := lookupAgentId agentMap ti.agent ti.specialty
    file_path := filePath
    line_number := match ti.issue.line with
      | some n => if n = 0 then none else some n
      | none => none
    severity := normalizeSeverity ti.issue.severity
    category := categoryFor ti.specialty
    title := if ti.issue.description = "" then "Code issue found"
             else ti.issue.description
    description := ti.issue.description
    suggestion := if ti.issue.recommendation = "" then none
                  else some ti.issue.recommendation }

/-- The flattening loop over `analysisResults`: every issue of every
file result yields exactly one row (files and issues are skipped only
when the issue list is empty, which contributes no rows either way). -/
def flattenFindings (agentMap : List (String × Nat))
    (frs : List FileResult) : List ReviewRow :=
  frs.flatMap (fun fr => fr.results.allIssues.map (buildRow agentMap fr.file))

/-- Split a list into chunks of `n` (the `BATCH_SIZE = 100` insert
loop). -/
def chunksOf {α : Type} (n : Nat) : List α → List (List α)
  | [] => []
  | x :: xs => (x :: xs.take (n - 1)) :: chunksOf n (xs.drop (n - 1))
termination_by l => l.length
decreasing_by
  simp only [List.length_drop, List.length_cons]
  omega

/-- The batched insert loop: batch `i` inserts its rows unless
`env` makes that insert fail, in which case the error is logged and the
loop continues; returns the total `insertedCount`. -/
def insertBatches (fails : Nat → Bool) (batches : List (List ReviewRow)) : Nat :=
  (batches.enum.map (fun p => if fails p.1 then 0 else p.2.length)).foldl (· + ·) 0

/-- The value returned by `processReviewJob` on success. -/
structure JobResult where
  filesProcessed : Nat
  totalIssues : Nat
  overallScore : Nat
  status : String
deriving DecidableEq, Repr

/-- STEP 5, the per-file analysis loop: for file `i`, run the
orchestrator (its agents settled per `env.agentOutcomes i`); on
`results.success` push to `analysisResults`, else only log; then update
`processed_files` and `progress = 40 + ⌊(processed / total) * 50⌋` and
emit `job.progress(progressPercent)`. -/
def analyzeLoop (env : WorkerEnv) (n : Nat) :
    List SrcFile → Nat → WorkerState →
    Except String (List FileResult) × WorkerState
  | [], _, st => (.ok [], st)
  | f :: fs, i, st =>
    match analyzeCode ((env.agentOutcomes i).map baseAgentInvoke) with
    | .error e => (.error e, { st with analyzeCalls := st.analyzeCalls + 1 })
    | .ok rep =>
      let st1 := { st with analyzeCalls := st.analyzeCalls + 1 }
      let st2 := if rep.success then st1
                 else { st1 with failedFileBranch := st1.failedFileBranch + 1 }
      let here : List FileResult :=
        if rep.success then [{ file := f.path, language := f.language, results := rep }]
        else []
      let p := 40 + ((i + 1) * 50) / n
      let st3 := { st2 with
        jobUpdates := st2.jobUpdates ++
          [{ processed_files := some (i + 1), progress := some p }]
        progressEvents := st2.progressEvents ++ [p] }
      match analyzeLoop env n fs (i + 1) st3 with
      | (.error e, st') => (.error e, st')
      | (.ok rest, st') => (.ok (here ++ rest), st')

/-- The `try` body of `processReviewJob` (STEPS 1–7), returning the
job result or the first thrown error, together with the observable
trace. -/
def runBody (env : WorkerEnv) : Except String JobResult × WorkerState :=
  let st : WorkerState := {}
  match env.repoFetch with
  | .error _ => (.error "Repository not found", st)
  | .ok _ =>
    let st := { st with
      jobUpdates := [{ status := some "processing", started_at := true }]
      repoStatusUpdates := ["cloning"]
      progressEvents := [10] }
    match env.cloneResult with
    | .error e => (.error e, st)
    | .ok _ =>
      let st := { st with
        cleanupArmed := true
        progressEvents := st.progressEvents ++ [30]
        repoStatusUpdates := st.repoStatusUpdates ++ ["analyzing"] }
      match env.parseResult with
      | .error e => (.error e, st)
      | .ok files =>
        let st := { st with
          jobUpdates := st.jobUpdates ++
            [{ total_files := some files.length, processed_files := some 0 }]
          progressEvents := st.progressEvents ++ [40] }
        match analyzeLoop env files.length files 0 st with
        | (.error e, st') => (.error e, st')
        | (.ok analysisResults, st') =>
          let totalIssues :=
            analysisResults.foldl (fun s r => s + r.results.totalIssuesFound) 0
          let avgScore :=
            if analysisResults.length > 0 then
              jsRound (analysisResults.foldl (fun s r => s + r.results.overallScore) 0)
                analysisResults.length
            else 0
          match env.resultsInsertError with
          | some e => (.error e, st')
          | none =>
            let st := { st' with resultsInserts := st'.resultsInserts + 1 }
            let agentMap := buildAgentMap env.agentsFetch
            let rows := flattenFindings agentMap analysisResults
            let inserted := insertBatches env.reviewsInsertFails (chunksOf 100 rows)
            let st := { st with
              reviewRowsInserted := inserted
              jobUpdates := st.jobUpdates ++
                [{ status := some "completed", progress := some 100
                   processed_files := some files.length, completed_at := true }]
              repoStatusUpdates := st.repoStatusUpdates ++ ["completed"]
              progressEvents := st.progressEvents ++ [100] }
            (.ok { filesProcessed := files.length, totalIssues := totalIssues
                   overallScore := avgScore, status := "completed" }, st)

/-- `processReviewJob(job)`: run the `try` body; on a thrown error the
`catch` block sets the job to `failed` with `error_message` and
`completed_at`, sets the repository status to `failed`, and re-throws;
the `finally` block runs the workspace cleanup whenever the clone had
produced one. -/
def processReviewJob (env : WorkerEnv) : Except String JobResult × WorkerState :=
  let (r, st) := runBody env
  match r with
  | .ok v => (.ok v, { st with cleanupRan := st.cleanupArmed })
  | .error e =>
    (.error e, { st with
      jobUpdates := st.jobUpdates ++
        [{ status := some "failed", error_message := some e, completed_at := true }]
      repoStatusUpdates := st.repoStatusUpdates ++ ["failed"]
      cleanupRan := st.cleanupArmed })

/-! ## JobQueue (`queueReviewJob` over a spec-modelled queue backend) -/

/-- The per-call options of `queueReviewJob(jobId, repoId, options)`. -/
structure QueueOptions where
  priority : Option Nat := none
  delay : Option Nat := none
deriving DecidableEq, Repr

/-- One entry of the queue, as created by `reviewQueue.add('code-review',
{ jobId, repoId, queuedAt }, { jobId, priority, delay, ... })`. -/
structure QueueEntry where
  id : String
  dataJobId : String
  dataRepoId : String
  priority : Nat
  delay : Nat
deriving DecidableEq, Repr

/-- Modelled from the spec: the queue backend's `add` operation.  The
Bull client is an external dependency whose internals are not under
`src/`; only its caller `queueReviewJob` is.  Per the spec's JobQueue
contract, "`enqueue(jobId, payload, opts{priority, delay, maxAttempts})`:
idempotent on `jobId` — re-enqueuing the same id updates rather than
duplicates."  So adding an entry whose id is already present replaces
that entry; otherwise the entry is appended. -/
def queueAdd (q : List QueueEntry) (e : QueueEntry) : List QueueEntry :=
  if q.any (fun old => old.id = e.id) then
    q.map (fun old => if old.id = e.id then e else old)
  else q ++ [e]

/-- `queueReviewJob(jobId, repoId, options)`: adds to the queue with the
backend's `jobId` option set to `jobId`, `priority: options.priority || 10`
(JS truthiness: an explicit 0 also falls back to 10) and
`delay: options.delay || 0`. -/
def queueReviewJob (jobId repoId : String) (options : QueueOptions)
    (q : List QueueEntry) : List QueueEntry :=
  queueAdd q
    { id := jobId
      dataJobId := jobId
      dataRepoId := repoId
      priority := match options.priority with
        | some p => if p = 0 then 10 else p
        | none => 10
      delay := match options.delay with
        | some d => d
        | none => 0 }

/-! ## Spec-side formulations (for refinement comparison only)

These two definitions follow the wording of the claims being checked,
not the source; they exist to be compared against the source-derived
`aggregateResults`. -/

/-- Claim C3's wording of the per-file score: the rounded arithmetic
mean of the score of *every* successful outcome — a score of 0
included — and 0 when there are zero successful outcomes. -/
def claimedOverallScore (results : List AgentResult) : Nat :=
  let scores := (results.filter (fun r => !r.isFailed)).map scoreOf
  if scores.length > 0 then jsRound (scores.foldl (· + ·) 0) scores.length
  else 0

/-- The score pipeline actually implemented: only successful outcomes
whose findings are present with a nonzero score enter the mean (the
amended form of claim C3). -/
def amendedOverallScore (results : List AgentResult) : Nat :=
  let scores :=
    ((results.filter (fun r => !r.isFailed)).filter hasTruthyScore).map scoreOf
  if scores.length > 0 then jsRound (scores.foldl (· + ·) 0) scores.length
  else 0

/-! ## Trace invariants -/

/-- The per-instant invariant on a job row that claim C8 asserts:
`processed_files` never exceeds `total_files` (with `total_files`
unset, `processed_files` is still at its initial 0). -/
def jobCountersOK (j : JobRecord) : Prop :=
  match j.total_files with
  | none => j.processed_files = 0
  | some t => j.processed_files ≤ t

instance (j : JobRecord) : Decidable (jobCountersOK j) := by
  unfold jobCountersOK
  exact match j.total_files with
  | none => inferInstanceAs (Decidable (_ = _))
  | some _ => inferInstanceAs (Decidable (_ ≤ _))

/-- `TraceOK j us`: starting from row `j`, every prefix of the update
list `us` leaves the row satisfying `jobCountersOK`. -/
def TraceOK (j : JobRecord) : List JobUpdate → Prop
  | [] => True
  | u :: us => jobCountersOK (applyUpdate j u) ∧ TraceOK (applyUpdate j u) us

/-! ## Concrete inputs used by counterexamples and witnesses -/

/-- A successful agent result with the given score and issues. -/
def okAgent (name specialty : String) (score : Nat) (issues : List Issue) :
    AgentResult :=
  { agentName := name, specialty := specialty
    findings := some { issues := some issues, score := some score, summary := "" }
    error := none, tokensUsed := 5 }

/-- A failed agent result (error outcome, no findings). -/
def errAgent (name specialty : String) : AgentResult :=
  { agentName := name, specialty := specialty
    findings := none, error := some "timeout", tokensUsed := 0 }

/-- Four agent outcomes — the configured agent set — with one failure. -/
def fourAgents : List AgentResult :=
  [okAgent "Bug Detective" "bug_detection" 80 [{ severity := "high", line := some 3 }]
  , okAgent "Performance Optimizer" "performance" 90 []
  , okAgent "Style Reviewer" "style" 70 [{ severity := "low", line := some 9 }]
  , errAgent "Security Guardian" "security"]

/-- Two successful outcomes, one with score 0 and one with score 100. -/
def scoreZeroAgents : List AgentResult :=
  [okAgent "Style Reviewer" "style" 0 []
  , okAgent "Security Guardian" "security" 100 []]

/-- Results containing an issue with the undeclared severity
`critical` beside declared ones. -/
def mixedSeverityAgents : List AgentResult :=
  [okAgent "Bug Detective" "bug_detection" 80
    [{ severity := "high", line := some 3 }, { severity := "critical", line := some 4 }]
  , okAgent "Style Reviewer" "style" 90 [{ severity := "low", line := some 1 }]]

/-- Results whose issues all use declared severities. -/
def declaredSeverityAgents : List AgentResult :=
  [okAgent "Bug Detective" "bug_detection" 80
    [{ severity := "high", line := some 3 }, { severity := "medium", line := some 4 }]
  , okAgent "Style Reviewer" "style" 90 [{ severity := "low", line := some 1 }]]

/-- Three discovered source files. -/
def sampleFiles : List SrcFile :=
  [{ path := "a.js", language := "javascript" }
  , { path := "b.js", language := "javascript" }
  , { path := "c.js", language := "javascript" }]

/-- A run in which every external collaborator succeeds. -/
def goodEnv : WorkerEnv :=
  { repoFetch := .ok ()
    cloneResult := .ok ()
    parseResult := .ok sampleFiles
    agentOutcomes := fun _ => fourAgents
    resultsInsertError := none
    agentsFetch := some [("bug", 1), ("security", 2), ("performance", 3), ("style", 4)]
    reviewsInsertFails := fun _ => false }

/-- A run in which the aggregate-report insert fails. -/
def insertFailEnv : WorkerEnv := { goodEnv with resultsInsertError := some "db down" }

/-- A run in which every findings-batch insert fails. -/
def batchFailEnv : WorkerEnv := { goodEnv with reviewsInsertFails := fun _ => true }

/-- A run in which the clone step fails. -/
def cloneFailEnv : WorkerEnv :=
  { goodEnv with cloneResult := .error "Clone failed: could not read from remote" }

/-! ## Supporting lemmas -/

theorem promiseAll_invoke (rs : List AgentResult) :
    promiseAll (rs.map baseAgentInvoke) = .ok rs := by
  induction rs with
  | nil => rfl
  | cons a as ih => simp [promiseAll, baseAgentInvoke, ih, Except.map]

/-- With agents that always settle to a result value, `Promise.all`
resolves and `analyzeCode` returns the aggregate. -/
theorem analyzeCode_invoke_ok (rs : List AgentResult) :
    analyzeCode (rs.map baseAgentInvoke) = .ok (aggregateResults rs) := by
  simp only [analyzeCode, promiseAll_invoke]

theorem length_filter_add_length_filter_not {α : Type} (p : α → Bool)
    (l : List α) :
    (l.filter p).length + (l.filter (fun a => !p a)).length = l.length := by
  induction l with
  | nil => rfl
  | cons a l ih => cases h : p a <;> simp [List.filter_cons, h] <;> omega

theorem filter_not_isFailed_idem (results : List AgentResult) :
    (results.filter (fun r => !r.isFailed)).filter (fun r => !r.isFailed) =
      results.filter (fun r => !r.isFailed) := by
  induction results with
  | nil => rfl
  | cons r rs ih => cases h : r.isFailed <;> simp [List.filter_cons, h, ih]

/-! ## Claim C1 -/

/-- **C1.** `analyzeCode` joins all agent invocations and — with each
agent settling to an `AgentResult` per the Analyzer contract (a remote
failure becomes an `error`-carrying result, never a rejection) —
returns normally no matter how many agents failed: the failed list is
exactly the error-carrying outcomes, every other agent's outcome is
recorded independently in `agentResults`, and no exception crosses the
join boundary. -/
theorem C1_analyzeCode_settles_all (rs : List AgentResult) :
    analyzeCode (rs.map baseAgentInvoke) = .ok (aggregateResults rs) ∧
    (aggregateResults rs).failedAgents = rs.filter (fun r => r.isFailed) ∧
    (aggregateResults rs).agentResults = rs.filter (fun r => !r.isFailed) :=
  ⟨analyzeCode_invoke_ok rs, rfl, rfl⟩

/-! ## Claim C2 -/

/-- **C2** (counterexample). With K = 4 agent results of which M = 1
failed, the report's failed list has length 1 = M, not K − M = 3 as the
claim states. -/
theorem C2_failed_length_counterexample :
    (aggregateResults fourAgents).failedAgents.length = 1 ∧
    (aggregateResults fourAgents).agentResults.length = 3 ∧
    ¬ ((aggregateResults fourAgents).failedAgents.length = 4 - 1) := by
  refine ⟨rfl, rfl, by decide⟩

/-- **C2** (amended). With M failures among K analyzer results, the
per-file report records all K outcomes — the K − M successes in
`agentResults` and the M failures in `failedAgents` — and
`overallScore` is computed only from the successful outcomes (removing
the failures does not change it). -/
theorem C2_outcome_counts (results : List AgentResult) :
    (aggregateResults results).failedAgents.length =
      (results.filter (fun r => r.isFailed)).length ∧
    (aggregateResults results).agentResults.length =
      results.length - (results.filter (fun r => r.isFailed)).length ∧
    (aggregateResults results).agentResults.length +
      (aggregateResults results).failedAgents.length = results.length ∧
    (aggregateResults results).overallScore =
      (aggregateResults (results.filter (fun r => !r.isFailed))).overallScore := by
  have hsplit := length_filter_add_length_filter_not (fun r => r.isFailed) results
  refine ⟨rfl, ?_, ?_, ?_⟩
  · show (results.filter (fun r => !r.isFailed)).length = _
    omega
  · show (results.filter (fun r => !r.isFailed)).length +
      (results.filter (fun r => r.isFailed)).length = _
    omega
  · show _ = _
    simp only [aggregateResults, filter_not_isFailed_idem]

/-! ## Claim C3 -/

/-- **C3** (counterexample). Two successful outcomes with scores 0 and
100: the claim's mean over every successful outcome is 50, but the
`r.findings && r.findings.score` guard treats the score 0 as falsy and
drops it, so the source computes 100. -/
theorem C3_score_zero_counterexample :
    (aggregateResults scoreZeroAgents).overallScore = 100 ∧
    claimedOverallScore scoreZeroAgents = 50 ∧
    (aggregateResults scoreZeroAgents).overallScore ≠
      claimedOverallScore scoreZeroAgents := by
  decide

/-- **C3** (amended). `overallScore` equals the rounded arithmetic mean
of the scores of the successful outcomes that carry findings with a
present, nonzero score; it is 0 when no successful outcome does — in
particular when there are zero successful outcomes. -/
theorem C3_overallScore_amended (results : List AgentResult) :
    (aggregateResults results).overallScore = amendedOverallScore results ∧
    ((results.filter (fun r => !r.isFailed)).filter hasTruthyScore = [] →
      (aggregateResults results).overallScore = 0) := by
  refine ⟨rfl, fun h => ?_⟩
  simp [aggregateResults, h]

/-- Witness for `C3_overallScore_amended` at a run whose only agent
failed (no successful outcomes at all). -/
theorem C3_overallScore_amended_witness :
    (aggregateResults [errAgent "Security Guardian" "security"]).overallScore = 0 :=
  (C3_overallScore_amended [errAgent "Security Guardian" "security"]).2 (by decide)

/-! ## Claim C4 -/

/-- **C4** (counterexample). The specialty `documentation` is not in
the mapping, yet the worker silently assigns it the default category
`bug`: the produced row is byte-for-byte the row produced for the same
finding tagged with the configured specialty `bug_detection`, so
nothing in the persisted data marks the anomaly — and the finding is
not dropped either. -/
theorem C4_unmapped_specialty_counterexample :
    specialtyToCategory "documentation" = none ∧
    buildRow [] "f.js"
      { issue := { severity := "high", description := "d", recommendation := "r" }
        agent := "Doc Agent", specialty := "documentation" } =
    buildRow [] "f.js"
      { issue := { severity := "high", description := "d", recommendation := "r" }
        agent := "Doc Agent", specialty := "bug_detection" } := by
  decide

/-- **C4** (amended). The specialty→category mapping is total over the
configured specialties (`bug_detection`→`bug`, `security`→`security`,
`performance`→`performance`, `style`→`style`); a finding with an
unmapped specialty is not dropped — the flattening still emits exactly
one row per collected issue — but it is silently assigned the default
category `bug`, with no anomaly surfaced in the produced rows. -/
theorem C4_specialty_category_mapping (s : String)
    (agentMap : List (String × Nat)) (fp : String) (ti : TaggedIssue)
    (frs : List FileResult) :
    specialtyToCategory "bug_detection" = some "bug" ∧
    specialtyToCategory "security" = some "security" ∧
    specialtyToCategory "performance" = some "performance" ∧
    specialtyToCategory "style" = some "style" ∧
    (specialtyToCategory s = none → categoryFor s = "bug") ∧
    (buildRow agentMap fp ti).category = categoryFor ti.specialty ∧
    (flattenFindings agentMap frs).length =
      (frs.map (fun fr => fr.results.allIssues.length)).sum := by
  refine ⟨rfl, rfl, rfl, rfl, fun h => ?_, rfl, ?_⟩
  · simp [categoryFor, h]
  · simp only [flattenFindings, List.length_flatMap]
    congr 1
    apply List.map_congr_left
    intro fr _
    simp

/-- Witness for `C4_specialty_category_mapping`: the unmapped
specialty `documentation` gets category `bug`, and a configured
specialty's row carries its mapped category. -/
theorem C4_specialty_category_mapping_witness :
    categoryFor "documentation" = "bug" ∧
    (buildRow [] "a.js"
      { issue := { severity := "low" }, agent := "Style Reviewer"
        specialty := "style" }).category = categoryFor "style" :=
  ⟨(C4_specialty_category_mapping "documentation" [] "a.js"
      { issue := { severity := "low" }, agent := "Style Reviewer", specialty := "style" }
      []).2.2.2.2.1 (by decide),
   (C4_specialty_category_mapping "documentation" [] "a.js"
      { issue := { severity := "low" }, agent := "Style Reviewer", specialty := "style" }
      []).2.2.2.2.2.1⟩

/-! ## Claim C10: severity-tally lemmas -/

theorem foldl_jsInc_int (l : List TaggedIssue) :
    ∀ (m : String → Option JsNum) (k : String) (n : Int),
    m k = some (JsNum.int n) →
    (l.foldl (fun m ti => jsInc m ti.issue.severity) m) k =
      some (JsNum.int (n + l.countP (fun ti => ti.issue.severity = k))) := by
  induction l with
  | nil => intro m k n h; simpa using h
  | cons ti l ih =>
    intro m k n h
    rw [List.foldl_cons]
    by_cases hk : ti.issue.severity = k
    · have h1 : (jsInc m ti.issue.severity) k = some (JsNum.int (n + 1)) := by
        show (if k = ti.issue.severity then _ else _) = _
        rw [if_pos hk.symm, hk, h]
      rw [ih _ _ _ h1]
      have hc : (ti :: l).countP (fun ti => ti.issue.severity = k) =
          l.countP (fun ti => ti.issue.severity = k) + 1 := by
        simp [List.countP_cons, hk]
      rw [hc]
      exact congrArg (fun z => some (JsNum.int z)) (by push_cast; omega)
    · have h1 : (jsInc m ti.issue.severity) k = some (JsNum.int n) := by
        show (if k = ti.issue.severity then _ else _) = _
        rw [if_neg (Ne.symm hk)]
        exact h
      rw [ih _ _ _ h1]
      have hc : (ti :: l).countP (fun ti => ti.issue.severity = k) =
          l.countP (fun ti => ti.issue.severity = k) := by
        simp [List.countP_cons, hk]
      rw [hc]

theorem foldl_jsInc_nan (l : List TaggedIssue) :
    ∀ (m : String → Option JsNum) (k : String), m k = some JsNum.nan →
    (l.foldl (fun m ti => jsInc m ti.issue.severity) m) k = some JsNum.nan := by
  induction l with
  | nil => intro m k h; simpa using h
  | cons ti l ih =>
    intro m k h
    rw [List.foldl_cons]
    apply ih
    by_cases hk : k = ti.issue.severity
    · show (if k = ti.issue.severity then _ else _) = _
      rw [if_pos hk, ← hk, h]
    · show (if k = ti.issue.severity then _ else _) = _
      rw [if_neg hk]
      exact h

theorem foldl_jsInc_none (l : List TaggedIssue) :
    ∀ (m : String → Option JsNum) (k : String), m k = none →
    (l.foldl (fun m ti => jsInc m ti.issue.severity) m) k =
      (if l.countP (fun ti => ti.issue.severity = k) = 0 then none
       else some JsNum.nan) := by
  induction l with
  | nil => intro m k h; simpa using h
  | cons ti l ih =>
    intro m k h
    rw [List.foldl_cons]
    by_cases hk : ti.issue.severity = k
    · have h1 : (jsInc m ti.issue.severity) k = some JsNum.nan := by
        show (if k = ti.issue.severity then _ else _) = _
        rw [if_pos hk.symm, hk, h]
      rw [foldl_jsInc_nan l _ _ h1]
      simp [List.countP_cons, hk]
    · have h1 : (jsInc m ti.issue.severity) k = none := by
        show (if k = ti.issue.severity then _ else _) = _
        rw [if_neg (Ne.symm hk)]
        exact h
      rw [ih _ _ h1]
      simp [List.countP_cons, hk]

theorem countP_three_partition (l : List TaggedIssue)
    (h : ∀ ti ∈ l, ti.issue.severity = "high" ∨ ti.issue.severity = "medium" ∨
      ti.issue.severity = "low") :
    l.countP (fun ti => ti.issue.severity = "high") +
    l.countP (fun ti => ti.issue.severity = "medium") +
    l.countP (fun ti => ti.issue.severity = "low") = l.length := by
  induction l with
  | nil => rfl
  | cons ti l ih =>
    have hti := h ti (by simp)
    have ih' := ih (fun x hx => h x (by simp [hx]))
    rcases hti with h1 | h1 | h1 <;> simp [List.countP_cons, h1] <;> omega

/-! ## Claim C10 -/

/-- **C10.** With every issue's severity among `high`/`medium`/`low`,
the three declared tallies are exact counts and sum to
`totalIssuesFound`.  An issue with any other severity is still
collected into `allIssues` and counted in `totalIssuesFound`
(`totalIssuesFound` is always the length of `allIssues`), but it lands
in no declared bucket: the unguarded `issuesBySeverity[sev]++` turns
the absent key into a `NaN` entry instead of raising. -/
theorem C10_severity_tally (results : List AgentResult) :
    (∀ k, k = "high" ∨ k = "medium" ∨ k = "low" →
      (aggregateResults results).issuesBySeverity k =
        some (JsNum.int (severityCount results k))) ∧
    ((∀ ti ∈ allIssuesOf results,
        ti.issue.severity = "high" ∨ ti.issue.severity = "medium" ∨
        ti.issue.severity = "low") →
      severityCount results "high" + severityCount results "medium" +
        severityCount results "low" =
        (aggregateResults results).totalIssuesFound) ∧
    (∀ sev, ¬(sev = "high" ∨ sev = "medium" ∨ sev = "low") →
      0 < severityCount results sev →
      (aggregateResults results).issuesBySeverity sev = some JsNum.nan) ∧
    (aggregateResults results).totalIssuesFound = (allIssuesOf results).length := by
  refine ⟨?_, ?_, ?_, rfl⟩
  · intro k hk
    have h0 : initialTally k = some (JsNum.int 0) := by
      simp [initialTally, hk]
    show (allIssuesOf results).foldl (fun m ti => jsInc m ti.issue.severity)
      initialTally k = _
    rw [foldl_jsInc_int _ _ _ _ h0]
    simp [severityCount]
  · intro hall
    show _ = (allIssuesOf results).length
    exact countP_three_partition _ hall
  · intro sev hsev hpos
    have h0 : initialTally sev = none := by
      simp [initialTally, hsev]
    show (allIssuesOf results).foldl (fun m ti => jsInc m ti.issue.severity)
      initialTally sev = _
    rw [foldl_jsInc_none _ _ _ h0]
    have : (allIssuesOf results).countP (fun ti => ti.issue.severity = sev) ≠ 0 := by
      have := hpos
      simp only [severityCount] at this
      omega
    simp [this]

/-- Witness for `C10_severity_tally`: an undeclared `critical` issue
yields a `NaN` entry, and on all-declared severities the three buckets
are exact and sum to the total. -/
theorem C10_severity_tally_witness :
    (aggregateResults mixedSeverityAgents).issuesBySeverity "critical" =
      some JsNum.nan ∧
    (aggregateResults declaredSeverityAgents).issuesBySeverity "high" =
      some (JsNum.int (severityCount declaredSeverityAgents "high")) ∧
    severityCount declaredSeverityAgents "high" +
      severityCount declaredSeverityAgents "medium" +
      severityCount declaredSeverityAgents "low" =
      (aggregateResults declaredSeverityAgents).totalIssuesFound :=
  ⟨(C10_severity_tally mixedSeverityAgents).2.2.1 "critical" (by decide) (by decide),
   (C10_severity_tally declaredSeverityAgents).1 "high" (by decide),
   (C10_severity_tally declaredSeverityAgents).2.1 (by decide)⟩

/-! ## Worker trace characterization -/

/-- The STEP-2 update: `{ status: 'processing', started_at }`. -/
def processingUpdate : JobUpdate := { status := some "processing", started_at := true }

/-- The STEP-4 update: `{ total_files: n, processed_files: 0 }`. -/
def enumUpdate (n : Nat) : JobUpdate :=
  { total_files := some n, processed_files := some 0 }

/-- The progress value emitted after file `j` of `n`:
`40 + ⌊(j / n) * 50⌋`. -/
def fileProgress (n j : Nat) : Nat := 40 + j * 50 / n

/-- The per-file update: `{ processed_files: j, progress }`. -/
def fileUpdate (n j : Nat) : JobUpdate :=
  { processed_files := some j, progress := some (fileProgress n j) }

/-- The STEP-7 update on success. -/
def completedUpdate (n : Nat) : JobUpdate :=
  { status := some "completed", progress := some 100
    processed_files := some n, completed_at := true }

/-- The `catch`-block update on a thrown error `e`. -/
def failUpdate (e : String) : JobUpdate :=
  { status := some "failed", error_message := some e, completed_at := true }

/-- The `analysisResults` list produced for `files` when every agent
settles: one entry per file, aggregated from that file's agent
outcomes. -/
def fileResultsOf (env : WorkerEnv) (files : List SrcFile) : List FileResult :=
  (files.enumFrom 0).map (fun p =>
    { file := p.2.path, language := p.2.language
      results := aggregateResults (env.agentOutcomes p.1) })

theorem aggregateResults_success (rs : List AgentResult) :
    (aggregateResults rs).success = true := rfl

/-- The analysis loop never throws (agents settle to values), pushes
every file's report, and appends exactly one processed/progress update
and one progress emission per file, in file order. -/
theorem analyzeLoop_spec (env : WorkerEnv) (n : Nat) :
    ∀ (fs : List SrcFile) (i : Nat) (st : WorkerState),
    analyzeLoop env n fs i st =
      (.ok ((fs.enumFrom i).map (fun p =>
          { file := p.2.path, language := p.2.language
            results := aggregateResults (env.agentOutcomes p.1) })),
       { st with
          jobUpdates := st.jobUpdates ++ (List.range' (i + 1) fs.length).map (fileUpdate n)
          progressEvents := st.progressEvents ++ (List.range' (i + 1) fs.length).map (fileProgress n)
          analyzeCalls := st.analyzeCalls + fs.length }) := by
  intro fs
  induction fs with
  | nil => intro i st; simp [analyzeLoop, List.enumFrom, List.range']
  | cons f fs ih =>
    intro i st
    have hr : List.range' (i + 1) (fs.length + 1) =
        (i + 1) :: List.range' (i + 2) fs.length := rfl
    simp only [analyzeLoop, analyzeCode_invoke_ok, aggregateResults_success,
      if_true, ih, List.enumFrom, List.length_cons, hr, List.map_cons]
    simp [fileUpdate, fileProgress, List.append_assoc]
    omega

theorem runBody_repoErr (env : WorkerEnv) (e : String)
    (h : env.repoFetch = .error e) :
    runBody env = (.error "Repository not found", {}) := by
  simp only [runBody, h]

theorem runBody_cloneErr (env : WorkerEnv) (e : String)
    (hr : env.repoFetch = .ok ()) (hc : env.cloneResult = .error e) :
    runBody env = (.error e,
      { jobUpdates := [processingUpdate]
        repoStatusUpdates := ["cloning"]
        progressEvents := [10] }) := by
  simp only [runBody, hr, hc]
  rfl

theorem runBody_parseErr (env : WorkerEnv) (e : String)
    (hr : env.repoFetch = .ok ()) (hc : env.cloneResult = .ok ())
    (hp : env.parseResult = .error e) :
    runBody env = (.error e,
      { jobUpdates := [processingUpdate]
        repoStatusUpdates := ["cloning", "analyzing"]
        progressEvents := [10, 30]
        cleanupArmed := true }) := by
  simp only [runBody, hr, hc, hp]
  rfl

theorem runBody_insErr (env : WorkerEnv) (files : List SrcFile) (e : String)
    (hr : env.repoFetch = .ok ()) (hc : env.cloneResult = .ok ())
    (hp : env.parseResult = .ok files)
    (hins : env.resultsInsertError = some e) :
    runBody env = (.error e,
      { jobUpdates := [processingUpdate, enumUpdate files.length] ++
          (List.range' 1 files.length).map (fileUpdate files.length)
        repoStatusUpdates := ["cloning", "analyzing"]
        progressEvents := [10, 30, 40] ++
          (List.range' 1 files.length).map (fileProgress files.length)
        analyzeCalls := files.length
        cleanupArmed := true }) := by
  simp only [runBody, hr, hc, hp, analyzeLoop_spec, hins]
  simp [processingUpdate, enumUpdate]

theorem runBody_ok (env : WorkerEnv) (files : List SrcFile)
    (hr : env.repoFetch = .ok ()) (hc : env.cloneResult = .ok ())
    (hp : env.parseResult = .ok files)
    (hins : env.resultsInsertError = none) :
    runBody env =
      (.ok { filesProcessed := files.length
             totalIssues := (fileResultsOf env files).foldl
               (fun s r => s + r.results.totalIssuesFound) 0
             overallScore :=
               if (fileResultsOf env files).length > 0 then
                 jsRound ((fileResultsOf env files).foldl
                     (fun s r => s + r.results.overallScore) 0)
                   (fileResultsOf env files).length
               else 0
             status := "completed" },
       { jobUpdates := ([processingUpdate, enumUpdate files.length] ++
            (List.range' 1 files.length).map (fileUpdate files.length)) ++
            [completedUpdate files.length]
         repoStatusUpdates := ["cloning", "analyzing", "completed"]
         progressEvents := ([10, 30, 40] ++
            (List.range' 1 files.length).map (fileProgress files.length)) ++ [100]
         analyzeCalls := files.length
         resultsInserts := 1
         reviewRowsInserted := insertBatches env.reviewsInsertFails
           (chunksOf 100 (flattenFindings (buildAgentMap env.agentsFetch)
             (fileResultsOf env files)))
         cleanupArmed := true }) := by
  simp only [runBody, hr, hc, hp, analyzeLoop_spec, hins, fileResultsOf]
  simp [processingUpdate, enumUpdate, completedUpdate]

theorem processReviewJob_repoErr (env : WorkerEnv) (e : String)
    (h : env.repoFetch = .error e) :
    processReviewJob env = (.error "Repository not found",
      { jobUpdates := [failUpdate "Repository not found"]
        repoStatusUpdates := ["failed"] }) := by
  simp only [processReviewJob, runBody_repoErr env e h]
  rfl

theorem processReviewJob_cloneErr (env : WorkerEnv) (e : String)
    (hr : env.repoFetch = .ok ()) (hc : env.cloneResult = .error e) :
    processReviewJob env = (.error e,
      { jobUpdates := [processingUpdate, failUpdate e]
        repoStatusUpdates := ["cloning", "failed"]
        progressEvents := [10] }) := by
  simp only [processReviewJob, runBody_cloneErr env e hr hc]
  rfl

theorem processReviewJob_parseErr (env : WorkerEnv) (e : String)
    (hr : env.repoFetch = .ok ()) (hc : env.cloneResult = .ok ())
    (hp : env.parseResult = .error e) :
    processReviewJob env = (.error e,
      { jobUpdates := [processingUpdate, failUpdate e]
        repoStatusUpdates := ["cloning", "analyzing", "failed"]
        progressEvents := [10, 30]
        cleanupArmed := true
        cleanupRan := true }) := by
  simp only [processReviewJob, runBody_parseErr env e hr hc hp]
  rfl

theorem processReviewJob_insErr (env : WorkerEnv) (files : List SrcFile)
    (e : String)
    (hr : env.repoFetch = .ok ()) (hc : env.cloneResult = .ok ())
    (hp : env.parseResult = .ok files)
    (hins : env.resultsInsertError = some e) :
    processReviewJob env = (.error e,
      { jobUpdates := ([processingUpdate, enumUpdate files.length] ++
          (List.range' 1 files.length).map (fileUpdate files.length)) ++
          [failUpdate e]
        repoStatusUpdates := ["cloning", "analyzing", "failed"]
        progressEvents := [10, 30, 40] ++
          (List.range' 1 files.length).map (fileProgress files.length)
        analyzeCalls := files.length
        cleanupArmed := true
        cleanupRan := true }) := by
  simp only [processReviewJob, runBody_insErr env files e hr hc hp hins]
  rfl

theorem processReviewJob_ok (env : WorkerEnv) (files : List SrcFile)
    (hr : env.repoFetch = .ok ()) (hc : env.cloneResult = .ok ())
    (hp : env.parseResult = .ok files)
    (hins : env.resultsInsertError = none) :
    processReviewJob env =
      (.ok { filesProcessed := files.length
             totalIssues := (fileResultsOf env files).foldl
               (fun s r => s + r.results.totalIssuesFound) 0
             overallScore :=
               if (fileResultsOf env files).length > 0 then
                 jsRound ((fileResultsOf env files).foldl
                     (fun s r => s + r.results.overallScore) 0)
                   (fileResultsOf env files).length
               else 0
             status := "completed" },
       { jobUpdates := ([processingUpdate, enumUpdate files.length] ++
            (List.range' 1 files.length).map (fileUpdate files.length)) ++
            [completedUpdate files.length]
         repoStatusUpdates := ["cloning", "analyzing", "completed"]
         progressEvents := ([10, 30, 40] ++
            (List.range' 1 files.length).map (fileProgress files.length)) ++ [100]
         analyzeCalls := files.length
         resultsInserts := 1
         reviewRowsInserted := insertBatches env.reviewsInsertFails
           (chunksOf 100 (flattenFindings (buildAgentMap env.agentsFetch)
             (fileResultsOf env files)))
         cleanupArmed := true
         cleanupRan := true }) := by
  simp only [processReviewJob, runBody_ok env files hr hc hp hins]

theorem applyUpdates_append (j : JobRecord) (us vs : List JobUpdate) :
    applyUpdates j (us ++ vs) = applyUpdates (applyUpdates j us) vs :=
  List.foldl_append ..

/-! ## Claim C5 -/

/-- **C5.** If the aggregate-report insert fails, the error propagates
and the job ends with status `failed`; if it succeeds, the job ends
`completed` whatever the findings-batch inserts did — a findings-batch
insert error is absorbed inside the run (the env's `reviewsInsertFails`
is unconstrained here) and never fails the job. -/
theorem C5_persistence_failure_policy (env : WorkerEnv) (files : List SrcFile)
    (hr : env.repoFetch = .ok ()) (hc : env.cloneResult = .ok ())
    (hp : env.parseResult = .ok files) :
    (∀ e, env.resultsInsertError = some e →
      (processReviewJob env).1 = .error e ∧
      (applyUpdates {} (processReviewJob env).2.jobUpdates).status = "failed" ∧
      (applyUpdates {} (processReviewJob env).2.jobUpdates).completed_at = true) ∧
    (env.resultsInsertError = none →
      ∃ v, (processReviewJob env).1 = .ok v ∧ v.status = "completed" ∧
        (applyUpdates {} (processReviewJob env).2.jobUpdates).status =
          "completed" ∧
        (applyUpdates {} (processReviewJob env).2.jobUpdates).completed_at =
          true) := by
  constructor
  · intro e he
    rw [processReviewJob_insErr env files e hr hc hp he]
    refine ⟨rfl, ?_, ?_⟩
    · rw [applyUpdates_append]
      rfl
    · rw [applyUpdates_append]
      simp [applyUpdates, applyUpdate, failUpdate]
  · intro hnone
    rw [processReviewJob_ok env files hr hc hp hnone]
    refine ⟨_, rfl, rfl, ?_, ?_⟩
    · rw [applyUpdates_append]; rfl
    · rw [applyUpdates_append]
      simp [applyUpdates, applyUpdate, completedUpdate]

/-- Witness for `C5_persistence_failure_policy`: an aggregate-insert
failure fails the job; with every findings batch failing, the job still
completes. -/
theorem C5_persistence_failure_policy_witness :
    (processReviewJob insertFailEnv).1 = .error "db down" ∧
    (applyUpdates {} (processReviewJob insertFailEnv).2.jobUpdates).status =
      "failed" ∧
    (∃ v, (processReviewJob batchFailEnv).1 = .ok v ∧ v.status = "completed" ∧
      (applyUpdates {} (processReviewJob batchFailEnv).2.jobUpdates).status =
        "completed" ∧
      (applyUpdates {} (processReviewJob batchFailEnv).2.jobUpdates).completed_at =
        true) := by
  have h1 := (C5_persistence_failure_policy insertFailEnv sampleFiles
    rfl rfl rfl).1 "db down" rfl
  have h2 := (C5_persistence_failure_policy batchFailEnv sampleFiles
    rfl rfl rfl).2 rfl
  exact ⟨h1.1, h1.2.1, h2⟩

/-! ## Claim C6 -/

/-- **C6.** When the clone step fails with error `e`, the job ends with
status `failed`, the descriptive `error_message` `e` and `completed_at`
set; `processed_files` stays at its initial 0 and `total_files` stays
unset; the orchestrator is never invoked and no aggregate report is
inserted. -/
theorem C6_clone_failure (env : WorkerEnv) (e : String)
    (hr : env.repoFetch = .ok ()) (hc : env.cloneResult = .error e) :
    (processReviewJob env).1 = .error e ∧
    (applyUpdates {} (processReviewJob env).2.jobUpdates).status = "failed" ∧
    (applyUpdates {} (processReviewJob env).2.jobUpdates).error_message = some e ∧
    (applyUpdates {} (processReviewJob env).2.jobUpdates).completed_at = true ∧
    (applyUpdates {} (processReviewJob env).2.jobUpdates).processed_files = 0 ∧
    (applyUpdates {} (processReviewJob env).2.jobUpdates).total_files = none ∧
    (processReviewJob env).2.analyzeCalls = 0 ∧
    (processReviewJob env).2.resultsInserts = 0 := by
  rw [processReviewJob_cloneErr env e hr hc]
  exact ⟨rfl, rfl, rfl, rfl, rfl, rfl, rfl, rfl⟩

/-- Witness for `C6_clone_failure` at a concrete failing-clone run. -/
theorem C6_clone_failure_witness :
    (processReviewJob cloneFailEnv).1 =
      .error "Clone failed: could not read from remote" ∧
    (applyUpdates {} (processReviewJob cloneFailEnv).2.jobUpdates).status =
      "failed" ∧
    (applyUpdates {} (processReviewJob cloneFailEnv).2.jobUpdates).error_message =
      some "Clone failed: could not read from remote" ∧
    (applyUpdates {} (processReviewJob cloneFailEnv).2.jobUpdates).completed_at =
      true ∧
    (applyUpdates {} (processReviewJob cloneFailEnv).2.jobUpdates).processed_files =
      0 ∧
    (applyUpdates {} (processReviewJob cloneFailEnv).2.jobUpdates).total_files =
      none ∧
    (processReviewJob cloneFailEnv).2.analyzeCalls = 0 ∧
    (processReviewJob cloneFailEnv).2.resultsInserts = 0 :=
  C6_clone_failure cloneFailEnv "Clone failed: could not read from remote" rfl rfl

/-! ## Claim C9 -/

/-- **C9.** Whenever `analyzeCode` resolves to a report, that report
has `success = true` — `aggregateResults` hard-codes it — so the
worker's `results.success`-false branch (which would exclude the file
from the aggregate) is unreachable: its counter is 0 in every run. -/
theorem C9_success_always_true :
    (∀ (outcomes : List (Except String AgentResult)) (rep : AggregateReport),
      analyzeCode outcomes = .ok rep → rep.success = true) ∧
    (∀ env : WorkerEnv, (processReviewJob env).2.failedFileBranch = 0) := by
  constructor
  · intro outcomes rep h
    unfold analyzeCode at h
    cases hp : promiseAll outcomes with
    | ok rs =>
      rw [hp] at h
      cases h
      rfl
    | error e =>
      rw [hp] at h
      cases h
  · intro env
    cases hr : env.repoFetch with
    | error e => rw [processReviewJob_repoErr env e hr]
    | ok u =>
      cases u
      cases hc : env.cloneResult with
      | error e => rw [processReviewJob_cloneErr env e hr hc]
      | ok u =>
        cases u
        cases hp : env.parseResult with
        | error e => rw [processReviewJob_parseErr env e hr hc hp]
        | ok files =>
          cases hins : env.resultsInsertError with
          | some e => rw [processReviewJob_insErr env files e hr hc hp hins]
          | none => rw [processReviewJob_ok env files hr hc hp hins]

/-- Witness for `C9_success_always_true`: a resolved empty-agents
report has `success = true`, and a full successful run never takes the
failure branch. -/
theorem C9_success_always_true_witness :
    (aggregateResults []).success = true ∧
    (processReviewJob goodEnv).2.failedFileBranch = 0 :=
  ⟨C9_success_always_true.1 [] (aggregateResults []) rfl,
   C9_success_always_true.2 goodEnv⟩

/-! ## Claim C7 -/

theorem countP_queueAdd (q : List QueueEntry) (e : QueueEntry) (s : String)
    (he : e.id = s) :
    (queueAdd q e).countP (fun x => x.id = s) =
      max 1 (q.countP (fun x => x.id = s)) := by
  subst he
  unfold queueAdd
  by_cases h : q.any (fun old => old.id = e.id)
  · rw [if_pos h]
    have hpos : 0 < q.countP (fun x => x.id = e.id) := by
      rw [List.countP_pos_iff]
      rcases List.any_eq_true.mp h with ⟨a, ha, hpa⟩
      exact ⟨a, ha, by simpa using hpa⟩
    have hmap : (q.map (fun old => if old.id = e.id then e else old)).countP
        (fun x => x.id = e.id) = q.countP (fun x => x.id = e.id) := by
      rw [List.countP_map]
      apply List.countP_congr
      intro a _
      by_cases ha : a.id = e.id
      · simp [Function.comp, ha]
      · simp [Function.comp, ha]
    rw [hmap]
    omega
  · rw [if_neg h]
    have h0 : q.countP (fun x => x.id = e.id) = 0 := by
      rw [List.countP_eq_zero]
      intro a ha
      intro hcontra
      exact h (List.any_eq_true.mpr ⟨a, ha, by simpa using hcontra⟩)
    rw [List.countP_append, h0]
    simp

/-- **C7.** Enqueuing is idempotent on `jobId`: starting from a queue
holding at most one entry for that id, two `queueReviewJob` calls with
the same `jobId` leave exactly one entry with that id — never two.
(The queue backend's `add` is modelled from the spec's JobQueue
contract: re-adding an existing id updates in place.) -/
theorem C7_enqueue_idempotent (q : List QueueEntry) (j r1 r2 : String)
    (o1 o2 : QueueOptions)
    (h : q.countP (fun x => x.id = j) ≤ 1) :
    (queueReviewJob j r2 o2 (queueReviewJob j r1 o1 q)).countP
      (fun x => x.id = j) = 1 := by
  unfold queueReviewJob
  rw [countP_queueAdd _ _ j rfl, countP_queueAdd _ _ j rfl]
  omega

/-- Witness for `C7_enqueue_idempotent`: enqueuing `job-1` twice into
the empty queue yields exactly one entry. -/
theorem C7_enqueue_idempotent_witness :
    (queueReviewJob "job-1" "repo-9" {}
      (queueReviewJob "job-1" "repo-7" { priority := some 5 } [])).countP
      (fun x => x.id = "job-1") = 1 :=
  C7_enqueue_idempotent [] "job-1" "repo-7" "repo-9"
    { priority := some 5 } {} (by decide)

/-! ## Claim C8: progress monotonicity machinery -/

theorem mem_of_mem_getLast? {α : Type} {l : List α} {x : α}
    (h : x ∈ l.getLast?) : x ∈ l := by
  rcases List.mem_getLast?_eq_getLast h with ⟨hne, rfl⟩
  exact List.getLast_mem hne

theorem fileProgress_mono (n : Nat) {a b : Nat} (h : a ≤ b) :
    fileProgress n a ≤ fileProgress n b := by
  unfold fileProgress
  have : a * 50 / n ≤ b * 50 / n :=
    Nat.div_le_div_right (Nat.mul_le_mul_right 50 h)
  omega

theorem fileProgress_lb (n j : Nat) : 40 ≤ fileProgress n j :=
  Nat.le_add_right 40 _

theorem fileProgress_ub (n j : Nat) (h : j ≤ n) : fileProgress n j ≤ 90 := by
  unfold fileProgress
  have h1 : j * 50 / n ≤ 50 := by
    cases n with
    | zero => simp
    | succ m =>
      have h2 : j * 50 ≤ (m + 1) * 50 := Nat.mul_le_mul_right 50 h
      have h3 : j * 50 / (m + 1) ≤ (m + 1) * 50 / (m + 1) :=
        Nat.div_le_div_right h2
      have h4 : (m + 1) * 50 / (m + 1) = 50 :=
        Nat.mul_div_cancel_left 50 (by omega)
      omega
  omega

theorem chain'_le_map_range' (f : Nat → Nat)
    (hf : ∀ a b : Nat, a ≤ b → f a ≤ f b) :
    ∀ (len s : Nat), List.Chain' (· ≤ ·) ((List.range' s len).map f) := by
  intro len
  induction len with
  | zero => intro s; simp
  | succ m ih =>
    intro s
    rw [List.range'_succ, List.map_cons, List.chain'_cons']
    refine ⟨?_, ih (s + 1)⟩
    intro y hy
    cases m with
    | zero => simp at hy
    | succ m' =>
      rw [List.range'_succ, List.map_cons] at hy
      simp only [List.head?_cons, Option.mem_def, Option.some.injEq] at hy
      rw [← hy]
      exact hf s (s + 1) (Nat.le_succ s)

theorem chain_progress_head (n : Nat) :
    List.Chain' (· ≤ ·)
      ([10, 30, 40] ++ (List.range' 1 n).map (fileProgress n)) := by
  rw [List.chain'_append]
  refine ⟨by norm_num [List.chain'_cons],
    chain'_le_map_range' _ (fun a b h => fileProgress_mono n h) n 1, ?_⟩
  intro x hx y hy
  have hx40 : 40 = x := by simpa using hx
  subst hx40
  cases n with
  | zero => simp at hy
  | succ m =>
    rw [List.range'_succ, List.map_cons] at hy
    simp only [List.head?_cons, Option.mem_def, Option.some.injEq] at hy
    rw [← hy]
    exact fileProgress_lb _ _

theorem mem_progress_le (n x : Nat)
    (hx : x ∈ [10, 30, 40] ++ (List.range' 1 n).map (fileProgress n)) :
    x ≤ 100 := by
  rw [List.mem_append] at hx
  rcases hx with hx | hx
  · simp at hx
    rcases hx with rfl | rfl | rfl <;> omega
  · rw [List.mem_map] at hx
    rcases hx with ⟨j, hj, rfl⟩
    rw [List.mem_range'_1] at hj
    have := fileProgress_ub n j (by omega)
    omega

theorem chain_progress_full (n : Nat) :
    List.Chain' (· ≤ ·)
      (([10, 30, 40] ++ (List.range' 1 n).map (fileProgress n)) ++ [100]) := by
  rw [List.chain'_append]
  refine ⟨chain_progress_head n, by simp, ?_⟩
  intro x hx y hy
  have hy100 : 100 = y := by simpa using hy
  subst hy100
  exact mem_progress_le n x (mem_of_mem_getLast? hx)

theorem jobCountersOK_of_some {j : JobRecord} {n : Nat}
    (h : j.total_files = some n) (hp : j.processed_files ≤ n) :
    jobCountersOK j := by
  simp only [jobCountersOK, h]
  exact hp

theorem jobCountersOK_elim_some {j : JobRecord} {n : Nat}
    (hok : jobCountersOK j) (h : j.total_files = some n) :
    j.processed_files ≤ n := by
  simpa only [jobCountersOK, h] using hok

theorem traceOK_take (us : List JobUpdate) :
    ∀ (j : JobRecord), jobCountersOK j → TraceOK j us →
    ∀ k, jobCountersOK (applyUpdates j (us.take k)) := by
  induction us with
  | nil =>
    intro j hj _ k
    simpa [applyUpdates] using hj
  | cons u us ih =>
    intro j hj htr k
    cases k with
    | zero => simpa [applyUpdates] using hj
    | succ k => exact ih (applyUpdate j u) htr.1 htr.2 k

theorem traceOK_append (us vs : List JobUpdate) :
    ∀ j, TraceOK j us → TraceOK (applyUpdates j us) vs →
    TraceOK j (us ++ vs) := by
  induction us with
  | nil =>
    intro j _ hv
    simpa [applyUpdates] using hv
  | cons u us ih =>
    intro j hu hv
    exact ⟨hu.1, ih (applyUpdate j u) hu.2 hv⟩

theorem traceOK_fileUpdates (n : Nat) :
    ∀ (js : List Nat) (rec : JobRecord), rec.total_files = some n →
      jobCountersOK rec → (∀ j ∈ js, j ≤ n) →
    TraceOK rec (js.map (fileUpdate n)) ∧
    (applyUpdates rec (js.map (fileUpdate n))).total_files = some n ∧
    jobCountersOK (applyUpdates rec (js.map (fileUpdate n))) := by
  intro js
  induction js with
  | nil => intro rec ht hok _; exact ⟨trivial, ht, hok⟩
  | cons j js ih =>
    intro rec ht hok hle
    have hj : j ≤ n := hle j (by simp)
    have hrec' : (applyUpdate rec (fileUpdate n j)).total_files = some n := by
      simp [applyUpdate, fileUpdate, ht]
    have hok' : jobCountersOK (applyUpdate rec (fileUpdate n j)) := by
      apply jobCountersOK_of_some hrec'
      simpa [applyUpdate, fileUpdate] using hj
    obtain ⟨htr, htf, hfin⟩ := ih (applyUpdate rec (fileUpdate n j)) hrec' hok'
      (fun x hx => hle x (by simp [hx]))
    exact ⟨⟨hok', htr⟩, htf, hfin⟩

theorem traceOK_completedTail (n : Nat) (j : JobRecord)
    (ht : j.total_files = some n) :
    TraceOK j [completedUpdate n] := by
  refine ⟨?_, trivial⟩
  apply jobCountersOK_of_some (n := n)
  · simp [applyUpdate, completedUpdate, ht]
  · simp [applyUpdate, completedUpdate]

theorem traceOK_failTail (e : String) (n : Nat) (j : JobRecord)
    (ht : j.total_files = some n) (hok : jobCountersOK j) :
    TraceOK j [failUpdate e] := by
  refine ⟨?_, trivial⟩
  apply jobCountersOK_of_some (n := n)
  · simp [applyUpdate, failUpdate, ht]
  · simpa [applyUpdate, failUpdate] using jobCountersOK_elim_some hok ht

theorem traceOK_main (n : Nat) (tail : List JobUpdate)
    (htail : ∀ j : JobRecord, j.total_files = some n → jobCountersOK j →
      TraceOK j tail) :
    TraceOK {} (([processingUpdate, enumUpdate n] ++
      (List.range' 1 n).map (fileUpdate n)) ++ tail) := by
  have h2tot : (applyUpdates {} [processingUpdate, enumUpdate n]).total_files =
      some n := by
    simp [applyUpdates, applyUpdate, processingUpdate, enumUpdate]
  have h2ok : jobCountersOK (applyUpdates {} [processingUpdate, enumUpdate n]) := by
    apply jobCountersOK_of_some h2tot
    simp [applyUpdates, applyUpdate, processingUpdate, enumUpdate]
  have hseg := traceOK_fileUpdates n (List.range' 1 n)
    (applyUpdates {} [processingUpdate, enumUpdate n]) h2tot h2ok
    (fun j hj => by rw [List.mem_range'_1] at hj; omega)
  apply traceOK_append
  · apply traceOK_append
    · refine ⟨?_, ?_, trivial⟩
      · simp [jobCountersOK, applyUpdate, processingUpdate]
      · exact jobCountersOK_of_some (n := n)
          (by simp [applyUpdate, processingUpdate, enumUpdate])
          (by simp [applyUpdate, processingUpdate, enumUpdate])
    · exact hseg.1
  · rw [applyUpdates_append]
    exact htail _ hseg.2.1 hseg.2.2

/-! ## Claim C8 -/

/-- **C8.** In every run, the emitted progress values
(10, 30, 40, then `40 + ⌊50·processed/total⌋` per file, then 100) form
a non-decreasing sequence; at every observed instant of the job-table
update trace, `processed_files` never exceeds `total_files` (and stays
0 while `total_files` is unset); and in a successful run the emissions
are exactly one per processed file, in file order — not batched. -/
theorem C8_progress_monotone (env : WorkerEnv) :
    List.Chain' (· ≤ ·) (processReviewJob env).2.progressEvents ∧
    (∀ k, jobCountersOK
      (applyUpdates {} ((processReviewJob env).2.jobUpdates.take k))) ∧
    (∀ files, env.repoFetch = .ok () → env.cloneResult = .ok () →
      env.parseResult = .ok files → env.resultsInsertError = none →
      (processReviewJob env).2.progressEvents =
        [10, 30, 40] ++
          (List.range' 1 files.length).map (fileProgress files.length) ++
          [100]) := by
  have main : List.Chain' (· ≤ ·) (processReviewJob env).2.progressEvents ∧
      TraceOK {} (processReviewJob env).2.jobUpdates := by
    cases hr : env.repoFetch with
    | error e =>
      rw [processReviewJob_repoErr env e hr]
      refine ⟨?_, ?_, trivial⟩
      · simp
      · simp [jobCountersOK, applyUpdate, failUpdate]
    | ok u =>
      cases u
      cases hc : env.cloneResult with
      | error e =>
        rw [processReviewJob_cloneErr env e hr hc]
        refine ⟨?_, ?_, ?_, trivial⟩
        · simp
        · simp [jobCountersOK, applyUpdate, processingUpdate]
        · simp [jobCountersOK, applyUpdate, processingUpdate, failUpdate]
      | ok u =>
        cases u
        cases hp : env.parseResult with
        | error e =>
          rw [processReviewJob_parseErr env e hr hc hp]
          refine ⟨?_, ?_, ?_, trivial⟩
          · norm_num [List.chain'_cons]
          · simp [jobCountersOK, applyUpdate, processingUpdate]
          · simp [jobCountersOK, applyUpdate, processingUpdate, failUpdate]
        | ok files =>
          cases hins : env.resultsInsertError with
          | some e =>
            rw [processReviewJob_insErr env files e hr hc hp hins]
            exact ⟨chain_progress_head files.length,
              traceOK_main files.length [failUpdate e]
                (fun j ht hok => traceOK_failTail e files.length j ht hok)⟩
          | none =>
            rw [processReviewJob_ok env files hr hc hp hins]
            exact ⟨chain_progress_full files.length,
              traceOK_main files.length [completedUpdate files.length]
                (fun j ht _ => traceOK_completedTail files.length j ht)⟩
  refine ⟨main.1, ?_, ?_⟩
  · intro k
    exact traceOK_take _ {} (by decide) main.2 k
  · intro files h1 h2 h3 h4
    rw [processReviewJob_ok env files h1 h2 h3 h4]

/-- Witness for `C8_progress_monotone` on a successful three-file run:
the emissions are non-decreasing and exactly
`[10, 30, 40] ++ per-file values ++ [100]`. -/
theorem C8_progress_monotone_witness :
    List.Chain' (· ≤ ·) (processReviewJob goodEnv).2.progressEvents ∧
    (processReviewJob goodEnv).2.progressEvents =
      [10, 30, 40] ++
        (List.range' 1 sampleFiles.length).map (fileProgress sampleFiles.length) ++
        [100] :=
  ⟨(C8_progress_monotone goodEnv).1,
   (C8_progress_monotone goodEnv).2.2 sampleFiles rfl rfl rfl rfl⟩

end CodeReview
